import Mathlib

/-!
Shallow embedding of `facefusion/download.py` (asset-acquisition subsystem).

The module's own logic is translated directly; the external collaborators it
calls (filesystem primitives, content-hash lookup, network, process manager,
state manager, logging) are modelled as oracles in an `Env` record and an
explicit filesystem state `FS`, following the collaborator interfaces the
spec lists in §6.  Observable side effects (network fetches, log emissions,
file removals, the lifecycle completion signal) are recorded in an event
trace so that theorems can speak about them.
-/

namespace FaceFusion

/-- Filesystem state: existence, byte size and content-hash validity of each
path.  `isFile` models `facefusion.filesystem.is_file`, `fileSize` the raw
size lookup behind `get_file_size`, and `validHash` the external
`facefusion.hash_helper.validate_hash` verdict for the file currently on
disk at that path. -/
structure FS where
  isFile : String → Bool
  fileSize : String → Nat
  validHash : String → Bool

/-- Static oracles for the external world, fixed for one process:
`netSize url` is the `Content-Length` the metadata query
(`urllib.request.urlopen`) would yield for `url` (`none` covers every
`OSError`/`TypeError`/`ValueError` failure path, including a missing or
unparsable header); `fetchOk url k` says whether the `k`-th (0-based)
streaming `requests.get` attempt for `url` succeeds; `bodyLen url` is the
byte length of the response body streamed on a successful fetch;
`freshValid path` is the `validate_hash` verdict a freshly downloaded file
at `path` would get; `skipDownload` is the process-wide
`state_manager.get_item('skip_download')` flag; `destPath dir url` models
`os.path.join(dir, os.path.basename(urlparse(url).path))`. -/
structure Env where
  netSize : String → Option Nat
  fetchOk : String → Nat → Bool
  bodyLen : String → Nat
  freshValid : String → Bool
  skipDownload : Bool
  destPath : String → String → String

/-- Observable side effects, in emission order.  `fetchAttempt url k` marks
the issuing of the `k`-th streaming GET for `url`; the log constructors
mirror the module's `logger.error`/`logger.debug` calls; `removeAttempt`
marks a `remove_file` call; `endSignal` marks `process_manager.end()`;
`checkpoint` marks `process_manager.check()`. -/
inductive Event where
  | checkpoint : Event
  | fetchAttempt : String → Nat → Event
  | downloadErrorLog : String → Nat → Nat → Event
  | downloadFailedLog : String → Nat → Event
  | validateHashSucceedLog : String → Event
  | validateHashFailedLog : String → Event
  | validateSourceSucceedLog : String → Event
  | validateSourceFailedLog : String → Event
  | removeAttempt : String → Event
  | deleteLog : String → Event
  | endSignal : Event
deriving DecidableEq, Repr

/-- Modelled from the spec: the filesystem collaborator `size(path) ->
integer` behind `facefusion.filesystem.get_file_size`, which yields the
on-disk size for an existing file and `0` for a missing one (the spec's
end-to-end scenarios treat an absent local file as size-0 for the skip
comparison). -/
def get_file_size (fs : FS) (path : String) : Nat :=
  if fs.isFile path then fs.fileSize path else 0

/-- Modelled from the spec: the filesystem collaborator `delete(path) ->
bool` behind `facefusion.filesystem.remove_file`; deletion succeeds exactly
when a file is present at the path. -/
def remove_file (fs : FS) (path : String) : Bool × FS :=
  if fs.isFile path then
    (true,
      { isFile := fun p => if p = path then false else fs.isFile p
        fileSize := fun p => if p = path then 0 else fs.fileSize p
        validHash := fun p => if p = path then false else fs.validHash p })
  else
    (false, fs)

/-- Writing the streamed response body to `path`
(`open(download_file_path, 'wb')` plus the chunked `file.write` loop): the
file now exists with the body's length as its size, and its content-hash
verdict becomes whatever `validate_hash` says of the fresh content. -/
def FS.write (fs : FS) (path : String) (size : Nat) (hashOk : Bool) : FS :=
  { isFile := fun p => if p = path then true else fs.isFile p
    fileSize := fun p => if p = path then size else fs.fileSize p
    validHash := fun p => if p = path then hashOk else fs.validHash p }

/-- `get_download_size(url)`: resolves the remote `Content-Length`,
degrading every failure to the sentinel `0`.  Thanks to
`@lru_cache(maxsize = None)` the function is a pure function of the URL for
the lifetime of the process, which is what this value-level embedding
captures; the cache/network-count behaviour itself is modelled separately
by `get_download_size_cached` below. -/
def get_download_size (env : Env) (url : String) : Nat :=
  (env.netSize url).getD 0

/-- The retry loop body of `conditional_download`
(`for attempt in range(max_retries)`), entered at index `attempt`.
Returns `(continue?, fs, events)`: `continue? = false` models the
`return False` taken when the last attempt fails; a successful attempt
writes the file and breaks; falling off the end of an empty range
continues to the next URL. -/
def attempt_go (env : Env) (fs : FS) (url path : String) (max_retries : Nat) :
    Nat → Nat → Bool × FS × List Event
  | _, 0 => (true, fs, [])
  | attempt, fuel + 1 =>
    if env.fetchOk url attempt then
      (true, fs.write path (env.bodyLen url) (env.freshValid path),
        [Event.fetchAttempt url attempt])
    else
      if attempt = max_retries - 1 then
        (false, fs,
          [Event.fetchAttempt url attempt,
           Event.downloadErrorLog url attempt max_retries,
           Event.downloadFailedLog url max_retries])
      else
        let r := attempt_go env fs url path max_retries (attempt + 1) fuel
        (r.1, r.2.1,
          Event.fetchAttempt url attempt ::
            Event.downloadErrorLog url attempt max_retries :: r.2.2)

/-- Entering the retry loop at index `attempt`: the loop guard
`attempt < max_retries` of `range(max_retries)` is carried as the explicit
count `max_retries - attempt` of remaining iterations, so that the
recursion is structural. -/
def attempt_download (env : Env) (fs : FS) (url path : String)
    (max_retries attempt : Nat) : Bool × FS × List Event :=
  attempt_go env fs url path max_retries attempt (max_retries - attempt)

/-- `conditional_download(download_directory_path, urls, max_retries)`:
for each URL in order, derive the destination path, skip when the local
size is already at least the resolved remote size, otherwise run the retry
loop; an exhausted retry loop returns `False` immediately, skipping the
remaining URLs, and completing the list returns `True`.  (The progress-bar
side channel is a pure display effect and is not recorded.) -/
def conditional_download (env : Env) (fs : FS) (download_directory_path : String)
    (urls : List String) (max_retries : Nat) : Bool × FS × List Event :=
  match urls with
  | [] => (true, fs, [])
  | url :: rest =>
    let download_file_path := env.destPath download_directory_path url
    let initial_size := get_file_size fs download_file_path
    let download_size := get_download_size env url
    if initial_size < download_size then
      let r := attempt_download env fs url download_file_path max_retries 0
      if r.1 then
        let r2 := conditional_download env r.2.1 download_directory_path rest max_retries
        (r2.1, r2.2.1, r.2.2 ++ r2.2.2)
      else
        (false, r.2.1, r.2.2)
    else
      conditional_download env fs download_directory_path rest max_retries

/-- `is_download_done(url, file_path)`: an existing file whose size equals
the resolved remote size. -/
def is_download_done (env : Env) (fs : FS) (url file_path : String) : Bool :=
  if fs.isFile file_path then
    get_download_size env url == get_file_size fs file_path
  else
    false

/-- `validate_hash_paths(hash_paths)`: order-preserving partition of the
input by `is_file`. -/
def validate_hash_paths (fs : FS) (hash_paths : List String) :
    List String × List String :=
  match hash_paths with
  | [] => ([], [])
  | hash_path :: rest =>
    let r := validate_hash_paths fs rest
    if fs.isFile hash_path then (hash_path :: r.1, r.2)
    else (r.1, hash_path :: r.2)

/-- `validate_source_paths(source_paths)`: order-preserving partition of
the input by the external `validate_hash` content check. -/
def validate_source_paths (fs : FS) (source_paths : List String) :
    List String × List String :=
  match source_paths with
  | [] => ([], [])
  | source_path :: rest =>
    let r := validate_source_paths fs rest
    if fs.validHash source_path then (source_path :: r.1, r.2)
    else (r.1, source_path :: r.2)

/-- One entry of a `DownloadSet`: the expected local path and the remote
origin of an asset (`hashes.get(key).get('path')` / `.get('url')`). -/
structure DownloadItem where
  url : String
  path : String
deriving DecidableEq, Repr

/-- A `DownloadSet` (`Dict[str, Dict[str, str]]`): a Python dict iterates in
insertion order, so it is embedded as the ordered association list of
(key, item) pairs. -/
abbrev DownloadSet := List (String × DownloadItem)

/-- The path-collection comprehension both orchestrators start with
(`[s.get(key).get('path') for key in s.keys()]`). -/
def setPaths (s : DownloadSet) : List String :=
  s.map (fun kv => kv.2.path)

/-- The download loop of the orchestrators: `for index in hashes: if
hashes.get(index).get('path') in invalid_paths: conditional_download(dir,
[url])` with the default `max_retries = 3`, the boolean result of each
batch being discarded. -/
def download_invalid (env : Env) (download_directory_path : String)
    (invalid : List String) (items : List (String × DownloadItem)) (fs : FS) :
    FS × List Event :=
  match items with
  | [] => (fs, [])
  | (_, item) :: rest =>
    if item.path ∈ invalid then
      let r := conditional_download env fs download_directory_path [item.url] 3
      let r2 := download_invalid env download_directory_path invalid rest r.2.1
      (r2.1, r.2.2 ++ r2.2)
    else
      download_invalid env download_directory_path invalid rest fs

/-- Lines 79-86 of the module: `process_manager.check()`, then — unless the
`skip_download` flag is set — an existence validation and a download of
every asset whose path came out invalid (guarded by `if
invalid_hash_paths:`). -/
def hashes_download_phase (env : Env) (fs : FS)
    (download_directory_path : String) (hashes : DownloadSet) : FS × List Event :=
  let hash_paths := setPaths hashes
  if env.skipDownload then
    (fs, [Event.checkpoint])
  else
    let invalid_hash_paths := (validate_hash_paths fs hash_paths).2
    if invalid_hash_paths = [] then
      (fs, [Event.checkpoint])
    else
      let r := download_invalid env download_directory_path invalid_hash_paths hashes fs
      (r.1, Event.checkpoint :: r.2)

/-- `conditional_download_hashes(download_directory_path, hashes)`:
download phase, re-validation by existence, a debug log per valid path, an
error log per invalid path, `process_manager.end()` when no invalid path
remains, and `not invalid_hash_paths` as the result. -/
def conditional_download_hashes (env : Env) (fs : FS)
    (download_directory_path : String) (hashes : DownloadSet) :
    Bool × FS × List Event :=
  let hash_paths := setPaths hashes
  let phase := hashes_download_phase env fs download_directory_path hashes
  let r := validate_hash_paths phase.1 hash_paths
  let logs := r.1.map Event.validateHashSucceedLog ++
    r.2.map Event.validateHashFailedLog
  let finish := if r.2 = [] then [Event.endSignal] else []
  (r.2.isEmpty, phase.1, phase.2 ++ logs ++ finish)

/-- Lines 104-111 of the module: the source-set download phase, identical
to the hash-set one except that validity means the content-hash check. -/
def sources_download_phase (env : Env) (fs : FS)
    (download_directory_path : String) (sources : DownloadSet) : FS × List Event :=
  let source_paths := setPaths sources
  if env.skipDownload then
    (fs, [Event.checkpoint])
  else
    let invalid_source_paths := (validate_source_paths fs source_paths).2
    if invalid_source_paths = [] then
      (fs, [Event.checkpoint])
    else
      let r := download_invalid env download_directory_path invalid_source_paths sources fs
      (r.1, Event.checkpoint :: r.2)

/-- Lines 117-122 of the module: for each still-invalid source path, an
error log, a `remove_file` call, and a deletion log when the removal
succeeded. -/
def source_cleanup (fs : FS) (invalid_source_paths : List String) :
    FS × List Event :=
  match invalid_source_paths with
  | [] => (fs, [])
  | p :: rest =>
    let rm := remove_file fs p
    let evs := Event.validateSourceFailedLog p :: Event.removeAttempt p ::
      (if rm.1 then [Event.deleteLog p] else [])
    let r := source_cleanup rm.2 rest
    (r.1, evs ++ r.2)

/-- `conditional_download_sources(download_directory_path, sources)`:
download phase, re-validation by content hash, a debug log per valid path,
then for each invalid path an error log plus deletion of the corrupt file,
`process_manager.end()` when no invalid path remains, and
`not invalid_source_paths` as the result. -/
def conditional_download_sources (env : Env) (fs : FS)
    (download_directory_path : String) (sources : DownloadSet) :
    Bool × FS × List Event :=
  let source_paths := setPaths sources
  let phase := sources_download_phase env fs download_directory_path sources
  let r := validate_source_paths phase.1 source_paths
  let cleanup := source_cleanup phase.1 r.2
  let logs := r.1.map Event.validateSourceSucceedLog ++ cleanup.2
  let finish := if r.2 = [] then [Event.endSignal] else []
  (r.2.isEmpty, cleanup.1, phase.2 ++ logs ++ finish)

/-- The process-wide state behind `@lru_cache(maxsize = None)` on
`get_download_size`: the memo table, plus a count of the network size
queries issued so far (one `urllib.request.urlopen` per cache miss,
successful or not). -/
structure SizeCache where
  table : List (String × Nat)
  netCalls : Nat
deriving Repr

/-- The stateful view of `get_download_size` under `lru_cache`: a cache hit
returns the memoized value and leaves the state untouched; a miss issues
one network query, degrades failure to the sentinel `0`, and memoizes the
result. -/
def get_download_size_cached (net : String → Option Nat) (s : SizeCache)
    (url : String) : Nat × SizeCache :=
  match s.table.lookup url with
  | some n => (n, s)
  | none =>
    let n := (net url).getD 0
    (n, ⟨(url, n) :: s.table, s.netCalls + 1⟩)

/-- Whether an event is the issuing of a streaming GET for the given URL. -/
def Event.isFetchOf (u : String) : Event → Bool
  | .fetchAttempt u2 _ => u2 == u
  | _ => false

/-- Number of streaming GET requests issued for `u` in a trace. -/
def countFetches (u : String) (evs : List Event) : Nat :=
  (evs.filter (Event.isFetchOf u)).length

/-- Events that the downloader (`conditional_download` and its retry loop)
can emit. -/
def Event.fromDownloader : Event → Bool
  | .fetchAttempt _ _ => true
  | .downloadErrorLog _ _ _ => true
  | .downloadFailedLog _ _ => true
  | _ => false

/-- Events that the still-invalid-source cleanup loop can emit. -/
def Event.fromCleanup : Event → Bool
  | .validateSourceFailedLog _ => true
  | .removeAttempt _ => true
  | .deleteLog _ => true
  | _ => false

/-- The ways a URL list can make it through `conditional_download` without
exhausting a retry loop: each URL in turn is either skipped (its local size
is already at least the resolved remote size) or its retry loop succeeds,
the filesystem being threaded through the successful writes. -/
inductive AllOk (env : Env) (dir : String) (m : Nat) : FS → List String → Prop
  | nil : ∀ fs, AllOk env dir m fs []
  | skip : ∀ fs u rest,
      ¬ get_file_size fs (env.destPath dir u) < get_download_size env u →
      AllOk env dir m fs rest →
      AllOk env dir m fs (u :: rest)
  | fetched : ∀ fs u rest,
      get_file_size fs (env.destPath dir u) < get_download_size env u →
      (attempt_download env fs u (env.destPath dir u) m 0).1 = true →
      AllOk env dir m (attempt_download env fs u (env.destPath dir u) m 0).2.1 rest →
      AllOk env dir m fs (u :: rest)

/-! Concrete instances used by the witness and counterexample theorems. -/

/-- An empty filesystem. -/
def fsEmpty : FS :=
  ⟨fun _ => false, fun _ => 0, fun _ => false⟩

/-- A filesystem holding a single 500-byte file at `/tmp/assets/w.bin`
whose content hash does not validate. -/
def fs500 : FS :=
  ⟨fun p => p = "/tmp/assets/w.bin",
   fun p => if p = "/tmp/assets/w.bin" then 500 else 0,
   fun _ => false⟩

/-- A world in which every remote size query fails and every fetch attempt
fails. -/
def envNoNet : Env :=
  { netSize := fun _ => none
    fetchOk := fun _ _ => false
    bodyLen := fun _ => 1000
    freshValid := fun _ => true
    skipDownload := false
    destPath := fun d u => d ++ "/" ++ u }

/-- A world in which every remote resource is 1000 bytes and every fetch
attempt fails. -/
def envFail : Env :=
  { envNoNet with netSize := fun _ => some 1000 }

/-- `envFail` with the skip-download flag raised. -/
def envSkip : Env :=
  { envFail with skipDownload := true }

/-- A one-asset download set pointing `w.bin` at `/tmp/assets/w.bin`. -/
def dsW : DownloadSet :=
  [("weights", ⟨"w.bin", "/tmp/assets/w.bin"⟩)]

/-- A network size oracle that fails for `w.bin` and answers 7 bytes for
everything else. -/
def netW : String → Option Nat :=
  fun u => if u = "w.bin" then none else some 7

/-- A size cache already holding the entry `x.bin ↦ 7` after one network
call. -/
def cacheW : SizeCache :=
  ⟨[("x.bin", 7)], 1⟩

/-! ### Helper lemmas -/

theorem attempt_download_of_ge (env : Env) (fs : FS) (u p : String) (m j : Nat)
    (h : ¬ j < m) : attempt_download env fs u p m j = (true, fs, []) := by
  have hz : m - j = 0 := by omega
  rw [attempt_download, hz]
  rfl

theorem attempt_download_step (env : Env) (fs : FS) (u p : String) (m j : Nat)
    (hj : j < m) :
    attempt_download env fs u p m j =
      if env.fetchOk u j then
        (true, fs.write p (env.bodyLen u) (env.freshValid p),
          [Event.fetchAttempt u j])
      else if j = m - 1 then
        (false, fs,
          [Event.fetchAttempt u j, Event.downloadErrorLog u j m,
           Event.downloadFailedLog u m])
      else
        ((attempt_download env fs u p m (j + 1)).1,
         (attempt_download env fs u p m (j + 1)).2.1,
         Event.fetchAttempt u j :: Event.downloadErrorLog u j m ::
           (attempt_download env fs u p m (j + 1)).2.2) := by
  have h1 : m - j = (m - (j + 1)) + 1 := by omega
  rw [attempt_download, h1]
  rfl

theorem countFetches_nil (u : String) : countFetches u [] = 0 := rfl

theorem countFetches_cons (u : String) (e : Event) (l : List Event) :
    countFetches u (e :: l) =
      (if Event.isFetchOf u e then 1 else 0) + countFetches u l := by
  by_cases h : Event.isFetchOf u e <;>
    simp [countFetches, List.filter_cons, h, Nat.add_comm]

/-! ### C10: `max_retries = 0` downloads nothing and reports success -/

/-- C10: for every directory and URL list, `conditional_download` with
`max_retries = 0` issues no fetch attempt for any URL (its event trace is
empty) and returns overall success, even when local files are smaller than
their resolved remote sizes. -/
theorem zero_retries_success (env : Env) (fs : FS) (dir : String)
    (urls : List String) :
    (conditional_download env fs dir urls 0).1 = true ∧
    (conditional_download env fs dir urls 0).2.2 = [] := by
  induction urls generalizing fs with
  | nil => exact ⟨rfl, rfl⟩
  | cons u rest ih =>
    rw [conditional_download]
    simp only [attempt_download_of_ge env fs u _ 0 0 (by omega)]
    by_cases h :
        get_file_size fs (env.destPath dir u) < get_download_size env u <;>
      simp [h, ih]

/-! ### C9: `is_download_done` is exact size equality on an existing file -/

/-- C9: `is_download_done` returns `true` exactly when the file exists and
the resolved remote size equals the local file size; in particular it is
`false` for a missing file and for an existing file strictly larger than
the remote size. -/
theorem is_download_done_spec (env : Env) (fs : FS) (url p : String) :
    (is_download_done env fs url p = true ↔
      (fs.isFile p = true ∧ get_download_size env url = get_file_size fs p)) ∧
    (fs.isFile p = false → is_download_done env fs url p = false) ∧
    (get_download_size env url < get_file_size fs p →
      is_download_done env fs url p = false) := by
  refine ⟨?_, ?_, ?_⟩
  · by_cases h : fs.isFile p <;> simp [is_download_done, h]
  · intro h
    simp [is_download_done, h]
  · intro h
    by_cases hf : fs.isFile p <;> simp [is_download_done, hf, Nat.ne_of_lt h]

/-- Witness for C9 at a concrete world: the 500-byte file at
`/tmp/assets/w.bin` with unknown remote size (sentinel `0 < 500`) is not
"download done", and neither is a missing file. -/
theorem is_download_done_spec_witness :
    is_download_done envNoNet fs500 "w.bin" "/tmp/assets/w.bin" = false ∧
    is_download_done envNoNet fsEmpty "w.bin" "/tmp/assets/w.bin" = false :=
  ⟨(is_download_done_spec envNoNet fs500 "w.bin" "/tmp/assets/w.bin").2.2
      (by decide),
   (is_download_done_spec envNoNet fsEmpty "w.bin" "/tmp/assets/w.bin").2.1
      (by decide)⟩

/-! ### C1: a failed size query plus a 500-byte local file SKIPS the URL -/

/-- C1 counterexample: in a world where the remote size query fails (the
oracle resolves to the sentinel `0`) and a 500-byte file already sits at
the destination path, `conditional_download` issues NO fetch attempt at all
(its trace is empty) and reports success — the claim that "a download is
still attempted" is false: `500 < 0` does not hold, so the URL is skipped
as already complete. -/
theorem unknown_size_skip_cex :
    get_download_size envNoNet "w.bin" = 0 ∧
    get_file_size fs500 (envNoNet.destPath "/tmp/assets" "w.bin") = 500 ∧
    (conditional_download envNoNet fs500 "/tmp/assets" ["w.bin"] 3).2.2 = [] ∧
    (conditional_download envNoNet fs500 "/tmp/assets" ["w.bin"] 3).1 = true := by
  decide

/-- C1 amended: for a URL whose remote size query fails (`get_download_size`
returns the unknown sentinel `0`) while a 500-byte local file already exists
at the destination path, `conditional_download` does NOT attempt a download
of that URL: the local size 500 is ≥ the unknown size 0, so the URL is
skipped as already complete and the call reports success. -/
theorem unknown_size_skip (env : Env) (fs : FS) (dir u : String) (m : Nat)
    (hnet : env.netSize u = none)
    (_hsize : get_file_size fs (env.destPath dir u) = 500) :
    (conditional_download env fs dir [u] m).1 = true ∧
    (conditional_download env fs dir [u] m).2.2 = [] := by
  rw [conditional_download]
  have h : ¬ get_file_size fs (env.destPath dir u) < get_download_size env u := by
    simp [get_download_size, hnet]
  simp [h, conditional_download]

/-- Witness for the amended C1 at the concrete world of the
counterexample. -/
theorem unknown_size_skip_witness :
    (conditional_download envNoNet fs500 "/tmp/assets" ["w.bin"] 3).1 = true ∧
    (conditional_download envNoNet fs500 "/tmp/assets" ["w.bin"] 3).2.2 = [] :=
  unknown_size_skip envNoNet fs500 "/tmp/assets" "w.bin" 3 rfl (by decide)

/-! ### C4: the validators are order-preserving partitions -/

theorem validate_hash_paths_eq_filter (fs : FS) (paths : List String) :
    validate_hash_paths fs paths =
      (paths.filter fs.isFile, paths.filter (fun p => !fs.isFile p)) := by
  induction paths with
  | nil => rfl
  | cons p rest ih =>
    rw [validate_hash_paths, ih]
    by_cases h : fs.isFile p <;> simp [List.filter_cons, h]

theorem validate_source_paths_eq_filter (fs : FS) (paths : List String) :
    validate_source_paths fs paths =
      (paths.filter fs.validHash, paths.filter (fun p => !fs.validHash p)) := by
  induction paths with
  | nil => rfl
  | cons p rest ih =>
    rw [validate_source_paths, ih]
    by_cases h : fs.validHash p <;> simp [List.filter_cons, h]

theorem count_filter_add (f : String → Bool) (l : List String) (x : String) :
    (l.filter f).count x + (l.filter (fun a => !f a)).count x = l.count x := by
  induction l with
  | nil => rfl
  | cons a l ih =>
    by_cases h : f a
    · rw [List.filter_cons_of_pos h, List.filter_cons_of_neg (by simp [h])]
      simp only [List.count_cons]
      by_cases hb : x == a <;> simp [hb] <;> omega
    · rw [List.filter_cons_of_neg (by simp [h]),
        List.filter_cons_of_pos (by simp [h])]
      simp only [List.count_cons]
      by_cases hb : x == a <;> simp [hb] <;> omega

theorem count_filter_min (f : String → Bool) (l : List String) (x : String) :
    min ((l.filter f).count x) ((l.filter (fun a => !f a)).count x) = 0 := by
  by_cases h : f x
  · have hz : (l.filter (fun a => !f a)).count x = 0 := by
      rw [List.count_eq_zero]
      simp [List.mem_filter, h]
    simp [hz]
  · have hz : (l.filter f).count x = 0 := by
      rw [List.count_eq_zero]
      simp [List.mem_filter, h]
    simp [hz]

/-- C4: both validators partition their input: each output list is a
sublist of the input (so it holds only input paths, in input-relative
order), every occurrence of every path lands in exactly one of the two
outputs (the occurrence counts add up and one of the two counts is always
zero). -/
theorem validate_paths_partition (fs : FS) (paths : List String) :
    ((validate_hash_paths fs paths).1.Sublist paths ∧
     (validate_hash_paths fs paths).2.Sublist paths ∧
     (∀ x, (validate_hash_paths fs paths).1.count x +
        (validate_hash_paths fs paths).2.count x = paths.count x) ∧
     (∀ x, min ((validate_hash_paths fs paths).1.count x)
        ((validate_hash_paths fs paths).2.count x) = 0)) ∧
    ((validate_source_paths fs paths).1.Sublist paths ∧
     (validate_source_paths fs paths).2.Sublist paths ∧
     (∀ x, (validate_source_paths fs paths).1.count x +
        (validate_source_paths fs paths).2.count x = paths.count x) ∧
     (∀ x, min ((validate_source_paths fs paths).1.count x)
        ((validate_source_paths fs paths).2.count x) = 0)) := by
  rw [validate_hash_paths_eq_filter, validate_source_paths_eq_filter]
  exact ⟨⟨List.filter_sublist _, List.filter_sublist _,
      fun x => count_filter_add _ _ _, fun x => count_filter_min _ _ _⟩,
    ⟨List.filter_sublist _, List.filter_sublist _,
      fun x => count_filter_add _ _ _, fun x => count_filter_min _ _ _⟩⟩

/-! ### C2: a URL that always fails is fetched exactly `max_retries` times -/

theorem attempt_download_all_fail (env : Env) (fs : FS) (u p : String) (m : Nat)
    (hall : ∀ k, k < m → env.fetchOk u k = false) (j : Nat) (hj : j < m) :
    (attempt_download env fs u p m j).1 = false ∧
    (attempt_download env fs u p m j).2.1 = fs ∧
    countFetches u (attempt_download env fs u p m j).2.2 = m - j := by
  rw [attempt_download_step env fs u p m j hj]
  simp only [hall j hj, Bool.false_eq_true, if_false]
  by_cases hlast : j = m - 1
  · simp only [if_pos hlast]
    refine ⟨by simp, by simp, ?_⟩
    rw [countFetches_cons, countFetches_cons, countFetches_cons,
      countFetches_nil]
    simp [Event.isFetchOf]
    omega
  · simp only [if_neg hlast]
    have hj1 : j + 1 < m := by omega
    have ih := attempt_download_all_fail env fs u p m hall (j + 1) hj1
    refine ⟨by simpa using ih.1, by simpa using ih.2.1, ?_⟩
    rw [countFetches_cons, countFetches_cons]
    simp [Event.isFetchOf, ih.2.2]
    omega
termination_by m - j

/-- C2: when a URL's local file is smaller than its resolved remote size
and every fetch attempt fails, `conditional_download` with
`max_retries = m ≥ 1` issues exactly `m` fetch attempts for that URL and
then reports failure. -/
theorem retry_bound_exact (env : Env) (fs : FS) (dir u : String) (m : Nat)
    (hm : 1 ≤ m)
    (hsz : get_file_size fs (env.destPath dir u) < get_download_size env u)
    (hall : ∀ k, k < m → env.fetchOk u k = false) :
    (conditional_download env fs dir [u] m).1 = false ∧
    countFetches u (conditional_download env fs dir [u] m).2.2 = m := by
  have ha := attempt_download_all_fail env fs u (env.destPath dir u) m hall 0 hm
  rw [conditional_download]
  simp only [if_pos hsz, ha.1, Bool.false_eq_true, if_false]
  refine ⟨trivial, ?_⟩
  simpa using ha.2.2

/-- Witness for C2: in `envFail` every fetch of `w.bin` fails and the
remote size is 1000; with `max_retries = 3` the empty filesystem triggers
exactly 3 fetch attempts and a failure result. -/
theorem retry_bound_exact_witness :
    (conditional_download envFail fsEmpty "/tmp/assets" ["w.bin"] 3).1 = false ∧
    countFetches "w.bin"
      (conditional_download envFail fsEmpty "/tmp/assets" ["w.bin"] 3).2.2 = 3 :=
  retry_bound_exact envFail fsEmpty "/tmp/assets" "w.bin" 3 (by decide)
    (by decide) (fun k _ => rfl)

/-! ### C3: fail-fast on first exhausted URL, success when none exhausts -/

theorem conditional_download_cons_skip (env : Env) (fs : FS) (dir u : String)
    (rest : List String) (m : Nat)
    (h : ¬ get_file_size fs (env.destPath dir u) < get_download_size env u) :
    conditional_download env fs dir (u :: rest) m =
      conditional_download env fs dir rest m := by
  rw [conditional_download]
  simp [h]

theorem conditional_download_cons_fetch_ok (env : Env) (fs : FS) (dir u : String)
    (rest : List String) (m : Nat)
    (h : get_file_size fs (env.destPath dir u) < get_download_size env u)
    (hk : (attempt_download env fs u (env.destPath dir u) m 0).1 = true) :
    conditional_download env fs dir (u :: rest) m =
      ((conditional_download env
          (attempt_download env fs u (env.destPath dir u) m 0).2.1 dir rest m).1,
       (conditional_download env
          (attempt_download env fs u (env.destPath dir u) m 0).2.1 dir rest m).2.1,
       (attempt_download env fs u (env.destPath dir u) m 0).2.2 ++
         (conditional_download env
           (attempt_download env fs u (env.destPath dir u) m 0).2.1 dir rest m).2.2) := by
  rw [conditional_download]
  simp [h, hk]

theorem conditional_download_cons_fetch_fail (env : Env) (fs : FS)
    (dir u : String) (rest : List String) (m : Nat)
    (h : get_file_size fs (env.destPath dir u) < get_download_size env u)
    (hk : (attempt_download env fs u (env.destPath dir u) m 0).1 = false) :
    conditional_download env fs dir (u :: rest) m =
      (false, (attempt_download env fs u (env.destPath dir u) m 0).2.1,
        (attempt_download env fs u (env.destPath dir u) m 0).2.2) := by
  rw [conditional_download]
  simp [h, hk]

theorem conditional_download_append (env : Env) (dir : String) (m : Nat)
    (l1 l2 : List String) : ∀ fs : FS,
    (conditional_download env fs dir l1 m).1 = true →
    conditional_download env fs dir (l1 ++ l2) m =
      ((conditional_download env
          (conditional_download env fs dir l1 m).2.1 dir l2 m).1,
       (conditional_download env
          (conditional_download env fs dir l1 m).2.1 dir l2 m).2.1,
       (conditional_download env fs dir l1 m).2.2 ++
         (conditional_download env
           (conditional_download env fs dir l1 m).2.1 dir l2 m).2.2) := by
  induction l1 with
  | nil =>
    intro fs _
    simp [conditional_download]
  | cons u l1 ih =>
    intro fs h1
    rw [List.cons_append]
    by_cases hc : get_file_size fs (env.destPath dir u) < get_download_size env u
    · by_cases hk :
          (attempt_download env fs u (env.destPath dir u) m 0).1 = true
      · rw [conditional_download_cons_fetch_ok env fs dir u l1 m hc hk] at h1
        rw [conditional_download_cons_fetch_ok env fs dir u (l1 ++ l2) m hc hk,
          conditional_download_cons_fetch_ok env fs dir u l1 m hc hk]
        rw [ih _ h1]
        simp [List.append_assoc]
      · have hk' :
            (attempt_download env fs u (env.destPath dir u) m 0).1 = false := by
          revert hk
          cases (attempt_download env fs u (env.destPath dir u) m 0).1 <;> simp
        rw [conditional_download_cons_fetch_fail env fs dir u l1 m hc hk'] at h1
        simp at h1
    · rw [conditional_download_cons_skip env fs dir u l1 m hc] at h1
      rw [conditional_download_cons_skip env fs dir u (l1 ++ l2) m hc,
        conditional_download_cons_skip env fs dir u l1 m hc]
      exact ih fs h1

theorem conditional_download_head_fail (env : Env) (fs : FS) (dir u : String)
    (rest : List String) (m : Nat)
    (h : (conditional_download env fs dir [u] m).1 = false) :
    conditional_download env fs dir (u :: rest) m =
      conditional_download env fs dir [u] m := by
  by_cases hc : get_file_size fs (env.destPath dir u) < get_download_size env u
  · by_cases hk : (attempt_download env fs u (env.destPath dir u) m 0).1 = true
    · rw [conditional_download_cons_fetch_ok env fs dir u [] m hc hk] at h
      simp [conditional_download] at h
    · have hk' :
          (attempt_download env fs u (env.destPath dir u) m 0).1 = false := by
        revert hk
        cases (attempt_download env fs u (env.destPath dir u) m 0).1 <;> simp
      rw [conditional_download_cons_fetch_fail env fs dir u rest m hc hk',
        conditional_download_cons_fetch_fail env fs dir u [] m hc hk']
  · rw [conditional_download_cons_skip env fs dir u [] m hc] at h
    simp [conditional_download] at h

/-- C3: (a) if a prefix of the URL list is processed successfully and the
next URL exhausts its retries, `conditional_download` returns failure with
exactly the events of the prefix and of that URL — the remaining URLs
contribute nothing, i.e. they are never examined or fetched; (b) if every
URL in order is either skipped (local size ≥ resolved remote size) or
downloaded successfully, the call returns success. -/
theorem batch_fail_fast_and_success :
    (∀ (env : Env) (fs : FS) (dir : String) (m : Nat) (l1 : List String)
        (u : String) (rest : List String),
       (conditional_download env fs dir l1 m).1 = true →
       (conditional_download env
         (conditional_download env fs dir l1 m).2.1 dir [u] m).1 = false →
       conditional_download env fs dir (l1 ++ u :: rest) m =
         (false,
          (conditional_download env
            (conditional_download env fs dir l1 m).2.1 dir [u] m).2.1,
          (conditional_download env fs dir l1 m).2.2 ++
            (conditional_download env
              (conditional_download env fs dir l1 m).2.1 dir [u] m).2.2)) ∧
    (∀ (env : Env) (fs : FS) (dir : String) (m : Nat) (urls : List String),
       AllOk env dir m fs urls →
       (conditional_download env fs dir urls m).1 = true) := by
  constructor
  · intro env fs dir m l1 u rest h1 h2
    rw [conditional_download_append env dir m l1 (u :: rest) fs h1]
    rw [conditional_download_head_fail env _ dir u rest m h2]
    rw [h2]
  · intro env fs dir m urls h
    induction h with
    | nil fs => rfl
    | skip fs u rest hc _ ih =>
      rw [conditional_download_cons_skip env fs dir u rest m hc]
      exact ih
    | fetched fs u rest hc hk _ ih =>
      rw [conditional_download_cons_fetch_ok env fs dir u rest m hc hk]
      exact ih

/-- Witness for C3: in `envFail` the empty prefix succeeds and `w.bin`
exhausts its retries, so the batch `["w.bin", "x.bin"]` fails with only
`w.bin`'s events; and in `envNoNet` the 500-byte file makes `["w.bin"]`
all-skip, so the batch succeeds. -/
theorem batch_fail_fast_and_success_witness :
    conditional_download envFail fsEmpty "/tmp/assets"
        ([] ++ "w.bin" :: ["x.bin"]) 3 =
      (false,
       (conditional_download envFail
         (conditional_download envFail fsEmpty "/tmp/assets" [] 3).2.1
         "/tmp/assets" ["w.bin"] 3).2.1,
       (conditional_download envFail fsEmpty "/tmp/assets" [] 3).2.2 ++
         (conditional_download envFail
           (conditional_download envFail fsEmpty "/tmp/assets" [] 3).2.1
           "/tmp/assets" ["w.bin"] 3).2.2) ∧
    (conditional_download envNoNet fs500 "/tmp/assets" ["w.bin"] 3).1 = true :=
  ⟨batch_fail_fast_and_success.1 envFail fsEmpty "/tmp/assets" 3 [] "w.bin"
      ["x.bin"] rfl (by decide),
   batch_fail_fast_and_success.2 envNoNet fs500 "/tmp/assets" 3 ["w.bin"]
     (AllOk.skip fs500 "w.bin" [] (by decide) (AllOk.nil fs500))⟩

/-! ### C6: the size cache memoizes, including the failure sentinel -/

/-- C6: for the `lru_cache`-backed `get_download_size`, a cache hit returns
the memoized value — including a `0` sentinel cached after a failed lookup —
and leaves the whole cache state, in particular the network-call count,
untouched; a miss issues exactly one network query and memoizes
`(netSize url).getD 0`; and a call for a different URL never disturbs an
existing entry.  Together: only the first call for a URL within a process
may touch the network, and every subsequent call returns the cached
result. -/
theorem size_cache_memoization (net : String → Option Nat) (s : SizeCache)
    (url : String) :
    (∀ n, s.table.lookup url = some n →
       get_download_size_cached net s url = (n, s)) ∧
    (s.table.lookup url = none →
       (get_download_size_cached net s url).1 = (net url).getD 0 ∧
       (get_download_size_cached net s url).2.table.lookup url =
         some ((net url).getD 0) ∧
       (get_download_size_cached net s url).2.netCalls = s.netCalls + 1) ∧
    (∀ u2, u2 ≠ url →
       (get_download_size_cached net s u2).2.table.lookup url =
         s.table.lookup url) := by
  refine ⟨?_, ?_, ?_⟩
  · intro n hn
    simp [get_download_size_cached, hn]
  · intro hn
    simp [get_download_size_cached, hn, List.lookup]
  · intro u2 hne
    cases h2 : s.table.lookup u2 with
    | some n => simp [get_download_size_cached, h2]
    | none =>
      have hb : (url == u2) = false := by
        simp [Ne.symm hne]
      simp [get_download_size_cached, h2, List.lookup, hb]

/-- Witness for C6 at a concrete cache: one prior entry for `x.bin` (value
7, one network call so far) and a network where `w.bin`'s size query
fails: the `x.bin` hit changes nothing, the `w.bin` miss caches the `0`
sentinel with a second network call, and the `x.bin` entry survives the
`w.bin` call. -/
theorem size_cache_memoization_witness :
    get_download_size_cached netW cacheW "x.bin" = (7, cacheW) ∧
    ((get_download_size_cached netW cacheW "w.bin").1 = 0 ∧
     (get_download_size_cached netW cacheW "w.bin").2.table.lookup "w.bin" =
       some 0 ∧
     (get_download_size_cached netW cacheW "w.bin").2.netCalls = 2) ∧
    (get_download_size_cached netW cacheW "w.bin").2.table.lookup "x.bin" =
      some 7 :=
  ⟨(size_cache_memoization netW cacheW "x.bin").1 7 (by decide),
   (size_cache_memoization netW cacheW "w.bin").2.1 (by decide),
   (size_cache_memoization netW cacheW "x.bin").2.2 "w.bin" (by decide)⟩

/-! ### Provenance of trace events, and the cleanup loop's effect on FS -/

theorem attempt_go_events (env : Env) (fs : FS) (u p : String) (m : Nat) :
    ∀ fuel j e, e ∈ (attempt_go env fs u p m j fuel).2.2 →
      e.fromDownloader = true := by
  intro fuel
  induction fuel with
  | zero =>
    intro j e h
    simp [attempt_go] at h
  | succ fuel ih =>
    intro j e h
    rw [attempt_go] at h
    split at h
    · simp at h
      subst h
      rfl
    · split at h
      · simp at h
        rcases h with rfl | rfl | rfl <;> rfl
      · simp at h
        rcases h with rfl | rfl | hmem
        · rfl
        · rfl
        · exact ih (j + 1) e hmem

theorem attempt_download_events (env : Env) (fs : FS) (u p : String)
    (m j : Nat) (e : Event) (h : e ∈ (attempt_download env fs u p m j).2.2) :
    e.fromDownloader = true :=
  attempt_go_events env fs u p m (m - j) j e h

theorem conditional_download_events (env : Env) (dir : String) (m : Nat) :
    ∀ (urls : List String) (fs : FS) (e : Event),
      e ∈ (conditional_download env fs dir urls m).2.2 →
      e.fromDownloader = true := by
  intro urls
  induction urls with
  | nil =>
    intro fs e h
    simp [conditional_download] at h
  | cons u rest ih =>
    intro fs e h
    by_cases hc : get_file_size fs (env.destPath dir u) < get_download_size env u
    · cases hk : (attempt_download env fs u (env.destPath dir u) m 0).1 with
      | true =>
        rw [conditional_download_cons_fetch_ok env fs dir u rest m hc hk] at h
        simp only [List.mem_append] at h
        rcases h with h | h
        · exact attempt_download_events env fs u (env.destPath dir u) m 0 e h
        · exact ih _ e h
      | false =>
        rw [conditional_download_cons_fetch_fail env fs dir u rest m hc hk] at h
        exact attempt_download_events env fs u (env.destPath dir u) m 0 e h
    · rw [conditional_download_cons_skip env fs dir u rest m hc] at h
      exact ih fs e h

theorem download_invalid_events (env : Env) (dir : String)
    (inv : List String) :
    ∀ (items : List (String × DownloadItem)) (fs : FS) (e : Event),
      e ∈ (download_invalid env dir inv items fs).2 →
      e.fromDownloader = true := by
  intro items
  induction items with
  | nil =>
    intro fs e h
    simp [download_invalid] at h
  | cons kv rest ih =>
    intro fs e h
    obtain ⟨k, item⟩ := kv
    rw [download_invalid] at h
    split at h
    · simp only [List.mem_append] at h
      rcases h with h | h
      · exact conditional_download_events env dir 3 [item.url] fs e h
      · exact ih _ e h
    · exact ih fs e h

theorem hashes_download_phase_events (env : Env) (fs : FS) (dir : String)
    (hs : DownloadSet) (e : Event)
    (h : e ∈ (hashes_download_phase env fs dir hs).2) :
    e = Event.checkpoint ∨ e.fromDownloader = true := by
  rw [hashes_download_phase] at h
  split at h
  · simp at h
    exact Or.inl h
  · by_cases hinv : (validate_hash_paths fs (setPaths hs)).2 = []
    · simp [hinv] at h
      exact Or.inl h
    · simp [hinv] at h
      rcases h with rfl | h
      · exact Or.inl rfl
      · exact Or.inr (download_invalid_events env dir _ hs fs e h)

theorem sources_download_phase_events (env : Env) (fs : FS) (dir : String)
    (ss : DownloadSet) (e : Event)
    (h : e ∈ (sources_download_phase env fs dir ss).2) :
    e = Event.checkpoint ∨ e.fromDownloader = true := by
  rw [sources_download_phase] at h
  split at h
  · simp at h
    exact Or.inl h
  · by_cases hinv : (validate_source_paths fs (setPaths ss)).2 = []
    · simp [hinv] at h
      exact Or.inl h
    · simp [hinv] at h
      rcases h with rfl | h
      · exact Or.inl rfl
      · exact Or.inr (download_invalid_events env dir _ ss fs e h)

theorem source_cleanup_events :
    ∀ (l : List String) (fs : FS) (e : Event),
      e ∈ (source_cleanup fs l).2 → e.fromCleanup = true := by
  intro l
  induction l with
  | nil =>
    intro fs e h
    simp [source_cleanup] at h
  | cons p rest ih =>
    intro fs e h
    rw [source_cleanup] at h
    by_cases hrm : (remove_file fs p).1 = true <;>
      simp only [hrm, Bool.false_eq_true, if_true, if_false,
        List.mem_append, List.mem_cons, List.mem_singleton,
        List.not_mem_nil, or_false] at h
    · rcases h with (rfl | rfl | rfl) | h
      · rfl
      · rfl
      · rfl
      · exact ih _ e h
    · rcases h with (rfl | rfl) | h
      · rfl
      · rfl
      · exact ih _ e h

theorem remove_file_fst (fs : FS) (p : String) :
    (remove_file fs p).1 = fs.isFile p := by
  rw [remove_file]
  split <;> simp [*]

theorem remove_file_isFile (fs : FS) (p q : String) :
    (remove_file fs p).2.isFile q = if q = p then false else fs.isFile q := by
  rw [remove_file]
  split
  · rfl
  · rename_i hp
    by_cases hq : q = p
    · subst hq
      simpa using hp
    · simp [hq]

theorem remove_file_fileSize (fs : FS) (p q : String) (hq : q ≠ p) :
    (remove_file fs p).2.fileSize q = fs.fileSize q := by
  rw [remove_file]
  split
  · simp [hq]
  · rfl

theorem remove_file_validHash (fs : FS) (p q : String) (hq : q ≠ p) :
    (remove_file fs p).2.validHash q = fs.validHash q := by
  rw [remove_file]
  split
  · simp [hq]
  · rfl

theorem source_cleanup_isFile :
    ∀ (l : List String) (fs : FS) (q : String),
      (source_cleanup fs l).1.isFile q =
        if q ∈ l then false else fs.isFile q := by
  intro l
  induction l with
  | nil =>
    intro fs q
    simp [source_cleanup]
  | cons p rest ih =>
    intro fs q
    rw [source_cleanup]
    by_cases hq : q ∈ rest
    · simp [ih, hq]
    · by_cases hqp : q = p
      · subst hqp
        simp [ih, hq, remove_file_isFile]
      · simp [ih, hq, remove_file_isFile, hqp]

theorem source_cleanup_fileSize :
    ∀ (l : List String) (fs : FS) (q : String), q ∉ l →
      (source_cleanup fs l).1.fileSize q = fs.fileSize q := by
  intro l
  induction l with
  | nil =>
    intro fs q _
    rfl
  | cons p rest ih =>
    intro fs q hq
    rw [source_cleanup]
    have hqp : q ≠ p := fun h => hq (h ▸ List.mem_cons_self p rest)
    have hqr : q ∉ rest := fun h => hq (List.mem_cons_of_mem p h)
    rw [ih _ q hqr, remove_file_fileSize fs p q hqp]

theorem source_cleanup_validHash :
    ∀ (l : List String) (fs : FS) (q : String), q ∉ l →
      (source_cleanup fs l).1.validHash q = fs.validHash q := by
  intro l
  induction l with
  | nil =>
    intro fs q _
    rfl
  | cons p rest ih =>
    intro fs q hq
    rw [source_cleanup]
    have hqp : q ≠ p := fun h => hq (h ▸ List.mem_cons_self p rest)
    have hqr : q ∉ rest := fun h => hq (List.mem_cons_of_mem p h)
    rw [ih _ q hqr, remove_file_validHash fs p q hqp]

theorem source_cleanup_logs :
    ∀ (l : List String) (fs : FS) (p : String), p ∈ l →
      Event.removeAttempt p ∈ (source_cleanup fs l).2 ∧
      Event.validateSourceFailedLog p ∈ (source_cleanup fs l).2 := by
  intro l
  induction l with
  | nil =>
    intro fs p h
    simp at h
  | cons q rest ih =>
    intro fs p h
    rw [source_cleanup]
    rcases List.mem_cons.mp h with rfl | hrest
    · constructor <;> simp
    · have hih := ih (remove_file fs q).2 p hrest
      constructor <;> simp [hih.1, hih.2]

theorem source_cleanup_deleteLog :
    ∀ (l : List String) (fs : FS) (p : String), p ∈ l → fs.isFile p = true →
      Event.deleteLog p ∈ (source_cleanup fs l).2 := by
  intro l
  induction l with
  | nil =>
    intro fs p h _
    simp at h
  | cons q rest ih =>
    intro fs p h hf
    rw [source_cleanup]
    by_cases hpq : p = q
    · subst hpq
      have h1 : (remove_file fs p).1 = true := by
        rw [remove_file_fst]
        exact hf
      simp [h1]
    · have hrest : p ∈ rest := by
        rcases List.mem_cons.mp h with h' | h'
        · exact absurd h' hpq
        · exact h'
      have hf' : (remove_file fs q).2.isFile p = true := by
        rw [remove_file_isFile]
        simp [hpq, hf]
      simp [ih _ p hrest hf']

theorem source_cleanup_remove_members :
    ∀ (l : List String) (fs : FS) (p : String),
      Event.removeAttempt p ∈ (source_cleanup fs l).2 → p ∈ l := by
  intro l
  induction l with
  | nil =>
    intro fs p h
    simp [source_cleanup] at h
  | cons q rest ih =>
    intro fs2 p h
    rw [source_cleanup] at h
    by_cases hrm : (remove_file fs2 q).1 = true <;>
      simp only [hrm, Bool.false_eq_true, if_true, if_false,
        List.mem_append, List.mem_cons, List.mem_singleton,
        List.not_mem_nil, or_false] at h
    · rcases h with (h | h | h) | h
      · simp at h
      · simp at h
        exact h ▸ List.mem_cons_self q rest
      · simp at h
      · exact List.mem_cons_of_mem q (ih _ p h)
    · rcases h with (h | h) | h
      · simp at h
      · simp at h
        exact h ▸ List.mem_cons_self q rest
      · exact List.mem_cons_of_mem q (ih _ p h)

/-! ### Unfolding lemmas for the orchestration entry points -/

theorem conditional_download_hashes_result (env : Env) (fs : FS) (dir : String)
    (hs : DownloadSet) :
    (conditional_download_hashes env fs dir hs).1 =
      (validate_hash_paths (hashes_download_phase env fs dir hs).1
        (setPaths hs)).2.isEmpty := rfl

theorem conditional_download_hashes_fs (env : Env) (fs : FS) (dir : String)
    (hs : DownloadSet) :
    (conditional_download_hashes env fs dir hs).2.1 =
      (hashes_download_phase env fs dir hs).1 := rfl

theorem conditional_download_hashes_trace (env : Env) (fs : FS) (dir : String)
    (hs : DownloadSet) :
    (conditional_download_hashes env fs dir hs).2.2 =
      (hashes_download_phase env fs dir hs).2 ++
        ((validate_hash_paths (hashes_download_phase env fs dir hs).1
            (setPaths hs)).1.map Event.validateHashSucceedLog ++
         (validate_hash_paths (hashes_download_phase env fs dir hs).1
            (setPaths hs)).2.map Event.validateHashFailedLog) ++
        (if (validate_hash_paths (hashes_download_phase env fs dir hs).1
              (setPaths hs)).2 = []
          then [Event.endSignal] else []) := rfl

theorem conditional_download_sources_result (env : Env) (fs : FS)
    (dir : String) (ss : DownloadSet) :
    (conditional_download_sources env fs dir ss).1 =
      (validate_source_paths (sources_download_phase env fs dir ss).1
        (setPaths ss)).2.isEmpty := rfl

theorem conditional_download_sources_fs (env : Env) (fs : FS) (dir : String)
    (ss : DownloadSet) :
    (conditional_download_sources env fs dir ss).2.1 =
      (source_cleanup (sources_download_phase env fs dir ss).1
        (validate_source_paths (sources_download_phase env fs dir ss).1
          (setPaths ss)).2).1 := rfl

theorem conditional_download_sources_trace (env : Env) (fs : FS)
    (dir : String) (ss : DownloadSet) :
    (conditional_download_sources env fs dir ss).2.2 =
      (sources_download_phase env fs dir ss).2 ++
        ((validate_source_paths (sources_download_phase env fs dir ss).1
            (setPaths ss)).1.map Event.validateSourceSucceedLog ++
         (source_cleanup (sources_download_phase env fs dir ss).1
           (validate_source_paths (sources_download_phase env fs dir ss).1
             (setPaths ss)).2).2) ++
        (if (validate_source_paths (sources_download_phase env fs dir ss).1
              (setPaths ss)).2 = []
          then [Event.endSignal] else []) := rfl

theorem hashes_download_phase_skip (env : Env) (fs : FS) (dir : String)
    (hs : DownloadSet) (h : env.skipDownload = true) :
    hashes_download_phase env fs dir hs = (fs, [Event.checkpoint]) := by
  rw [hashes_download_phase]
  simp [h]

theorem sources_download_phase_skip (env : Env) (fs : FS) (dir : String)
    (ss : DownloadSet) (h : env.skipDownload = true) :
    sources_download_phase env fs dir ss = (fs, [Event.checkpoint]) := by
  rw [sources_download_phase]
  simp [h]

/-! ### C5: result and completion signal coincide with "no invalid left" -/

/-- C5: each orchestration entry point returns `true` exactly when the
post-download re-validation over the asset set's paths leaves zero invalid
paths, and it emits the completion signal (`process_manager.end`) exactly
in that case. -/
theorem orchestration_end_iff_valid (env : Env) (fs : FS) (dir : String)
    (hs ss : DownloadSet) :
    (((conditional_download_hashes env fs dir hs).1 = true ↔
       (validate_hash_paths (hashes_download_phase env fs dir hs).1
         (setPaths hs)).2 = []) ∧
     (Event.endSignal ∈ (conditional_download_hashes env fs dir hs).2.2 ↔
       (validate_hash_paths (hashes_download_phase env fs dir hs).1
         (setPaths hs)).2 = [])) ∧
    (((conditional_download_sources env fs dir ss).1 = true ↔
       (validate_source_paths (sources_download_phase env fs dir ss).1
         (setPaths ss)).2 = []) ∧
     (Event.endSignal ∈ (conditional_download_sources env fs dir ss).2.2 ↔
       (validate_source_paths (sources_download_phase env fs dir ss).1
         (setPaths ss)).2 = [])) := by
  refine ⟨⟨?_, ?_⟩, ⟨?_, ?_⟩⟩
  · rw [conditional_download_hashes_result]
    simp [List.isEmpty_iff]
  · rw [conditional_download_hashes_trace]
    by_cases hinv : (validate_hash_paths (hashes_download_phase env fs dir hs).1
        (setPaths hs)).2 = []
    · simp [hinv]
    · simp only [hinv, if_false, iff_false]
      intro h
      simp at h
      rcases hashes_download_phase_events env fs dir hs _ h with h1 | h1
      · exact absurd h1 (by simp)
      · simp [Event.fromDownloader] at h1
  · rw [conditional_download_sources_result]
    simp [List.isEmpty_iff]
  · rw [conditional_download_sources_trace]
    by_cases hinv : (validate_source_paths (sources_download_phase env fs dir ss).1
        (setPaths ss)).2 = []
    · simp [hinv]
    · simp only [hinv, if_false, iff_false]
      intro h
      simp at h
      rcases h with h | h
      · rcases sources_download_phase_events env fs dir ss _ h with h1 | h1
        · exact absurd h1 (by simp)
        · simp [Event.fromDownloader] at h1
      · have h2 := source_cleanup_events _ _ _ h
        simp [Event.fromCleanup] at h2

/-! ### C7: the skip-download flag suppresses fetches but not validation -/

/-- C7: when the process-wide skip-download flag is set, neither
orchestration entry point emits a single fetch attempt — even if validation
finds invalid or missing assets — yet both still run the full re-validation
pass over the unchanged filesystem, emit the per-path success/failure logs,
and return the re-validation outcome. -/
theorem skip_flag_honored (env : Env) (fs : FS) (dir : String)
    (hs ss : DownloadSet) (hskip : env.skipDownload = true) :
    ((∀ u k, Event.fetchAttempt u k ∉
        (conditional_download_hashes env fs dir hs).2.2) ∧
     ((conditional_download_hashes env fs dir hs).1 = true ↔
        (validate_hash_paths fs (setPaths hs)).2 = []) ∧
     (∀ p, p ∈ (validate_hash_paths fs (setPaths hs)).1 →
        Event.validateHashSucceedLog p ∈
          (conditional_download_hashes env fs dir hs).2.2) ∧
     (∀ p, p ∈ (validate_hash_paths fs (setPaths hs)).2 →
        Event.validateHashFailedLog p ∈
          (conditional_download_hashes env fs dir hs).2.2)) ∧
    ((∀ u k, Event.fetchAttempt u k ∉
        (conditional_download_sources env fs dir ss).2.2) ∧
     ((conditional_download_sources env fs dir ss).1 = true ↔
        (validate_source_paths fs (setPaths ss)).2 = []) ∧
     (∀ p, p ∈ (validate_source_paths fs (setPaths ss)).1 →
        Event.validateSourceSucceedLog p ∈
          (conditional_download_sources env fs dir ss).2.2) ∧
     (∀ p, p ∈ (validate_source_paths fs (setPaths ss)).2 →
        Event.validateSourceFailedLog p ∈
          (conditional_download_sources env fs dir ss).2.2)) := by
  have hp := hashes_download_phase_skip env fs dir hs hskip
  have sp := sources_download_phase_skip env fs dir ss hskip
  refine ⟨⟨?_, ?_, ?_, ?_⟩, ⟨?_, ?_, ?_, ?_⟩⟩
  · intro u k h
    rw [conditional_download_hashes_trace, hp] at h
    by_cases hinv : (validate_hash_paths fs (setPaths hs)).2 = [] <;>
      simp [hinv] at h
  · rw [conditional_download_hashes_result, hp]
    simp [List.isEmpty_iff]
  · intro p h
    rw [conditional_download_hashes_trace, hp]
    exact List.mem_append_left _
      (List.mem_append_right _
        (List.mem_append_left _ (List.mem_map_of_mem _ h)))
  · intro p h
    rw [conditional_download_hashes_trace, hp]
    exact List.mem_append_left _
      (List.mem_append_right _
        (List.mem_append_right _ (List.mem_map_of_mem _ h)))
  · intro u k h
    rw [conditional_download_sources_trace, sp] at h
    by_cases hinv : (validate_source_paths fs (setPaths ss)).2 = [] <;>
      simp [hinv] at h <;>
      exact absurd (source_cleanup_events _ _ _ h) (by simp [Event.fromCleanup])
  · rw [conditional_download_sources_result, sp]
    simp [List.isEmpty_iff]
  · intro p h
    rw [conditional_download_sources_trace, sp]
    exact List.mem_append_left _
      (List.mem_append_right _
        (List.mem_append_left _ (List.mem_map_of_mem _ h)))
  · intro p h
    rw [conditional_download_sources_trace, sp]
    exact List.mem_append_left _
      (List.mem_append_right _
        (List.mem_append_right _ (source_cleanup_logs _ _ p h).2))

/-- Witness for C7 in a skip-flagged world: the 500-byte file passes the
existence validator and fails the content validator, and with
`skipDownload = true` no fetch attempt is emitted while the validation logs
still appear. -/
theorem skip_flag_honored_witness :
    Event.fetchAttempt "w.bin" 0 ∉
      (conditional_download_hashes envSkip fs500 "/tmp/assets" dsW).2.2 ∧
    Event.validateHashSucceedLog "/tmp/assets/w.bin" ∈
      (conditional_download_hashes envSkip fs500 "/tmp/assets" dsW).2.2 ∧
    Event.validateSourceFailedLog "/tmp/assets/w.bin" ∈
      (conditional_download_sources envSkip fs500 "/tmp/assets" dsW).2.2 :=
  ⟨(skip_flag_honored envSkip fs500 "/tmp/assets" dsW dsW rfl).1.1 "w.bin" 0,
   (skip_flag_honored envSkip fs500 "/tmp/assets" dsW dsW rfl).1.2.2.1
     "/tmp/assets/w.bin" (by decide),
   (skip_flag_honored envSkip fs500 "/tmp/assets" dsW dsW rfl).2.2.2.2
     "/tmp/assets/w.bin" (by decide)⟩

/-! ### C8: only the source-set variant deletes, and only invalid paths -/

theorem validate_source_paths_valid_not_invalid (fs : FS)
    (paths : List String) (p : String)
    (h : p ∈ (validate_source_paths fs paths).1) :
    p ∉ (validate_source_paths fs paths).2 := by
  intro h2
  rw [validate_source_paths_eq_filter] at h h2
  simp [List.mem_filter] at h h2
  simp [h.2] at h2

/-- C8: after re-validation, the source-set orchestrator performs a
`remove_file` on every still-invalid path — so none of them remains on disk
afterwards — logging the per-path error and, whenever a file had actually
been present, the deletion; removal attempts touch no other paths, and
valid paths keep their file state untouched.  The hash-set orchestrator
still logs an error for each of its still-invalid paths, but it never
removes or delete-logs anything and returns the filesystem exactly as its
download phase left it. -/
theorem source_cleanup_vs_hashes (env : Env) (fs : FS) (dir : String)
    (hs ss : DownloadSet) :
    (∀ p, p ∈ (validate_source_paths (sources_download_phase env fs dir ss).1
        (setPaths ss)).2 →
      Event.removeAttempt p ∈ (conditional_download_sources env fs dir ss).2.2 ∧
      Event.validateSourceFailedLog p ∈
        (conditional_download_sources env fs dir ss).2.2 ∧
      (conditional_download_sources env fs dir ss).2.1.isFile p = false ∧
      ((sources_download_phase env fs dir ss).1.isFile p = true →
        Event.deleteLog p ∈ (conditional_download_sources env fs dir ss).2.2)) ∧
    (∀ p, Event.removeAttempt p ∈
        (conditional_download_sources env fs dir ss).2.2 →
      p ∈ (validate_source_paths (sources_download_phase env fs dir ss).1
        (setPaths ss)).2) ∧
    (∀ p, p ∈ (validate_source_paths (sources_download_phase env fs dir ss).1
        (setPaths ss)).1 →
      (conditional_download_sources env fs dir ss).2.1.isFile p =
        (sources_download_phase env fs dir ss).1.isFile p ∧
      (conditional_download_sources env fs dir ss).2.1.fileSize p =
        (sources_download_phase env fs dir ss).1.fileSize p ∧
      (conditional_download_sources env fs dir ss).2.1.validHash p =
        (sources_download_phase env fs dir ss).1.validHash p) ∧
    (∀ p, p ∈ (validate_hash_paths (hashes_download_phase env fs dir hs).1
        (setPaths hs)).2 →
      Event.validateHashFailedLog p ∈
        (conditional_download_hashes env fs dir hs).2.2) ∧
    (∀ p, Event.removeAttempt p ∉
        (conditional_download_hashes env fs dir hs).2.2 ∧
      Event.deleteLog p ∉ (conditional_download_hashes env fs dir hs).2.2) ∧
    (conditional_download_hashes env fs dir hs).2.1 =
      (hashes_download_phase env fs dir hs).1 := by
  refine ⟨?_, ?_, ?_, ?_, ?_, conditional_download_hashes_fs env fs dir hs⟩
  · intro p h
    refine ⟨?_, ?_, ?_, ?_⟩
    · rw [conditional_download_sources_trace]
      exact List.mem_append_left _
        (List.mem_append_right _
          (List.mem_append_right _ (source_cleanup_logs _ _ p h).1))
    · rw [conditional_download_sources_trace]
      exact List.mem_append_left _
        (List.mem_append_right _
          (List.mem_append_right _ (source_cleanup_logs _ _ p h).2))
    · rw [conditional_download_sources_fs, source_cleanup_isFile]
      simp [h]
    · intro hf
      rw [conditional_download_sources_trace]
      exact List.mem_append_left _
        (List.mem_append_right _
          (List.mem_append_right _ (source_cleanup_deleteLog _ _ p h hf)))
  · intro p h
    rw [conditional_download_sources_trace] at h
    by_cases hinv : (validate_source_paths
        (sources_download_phase env fs dir ss).1 (setPaths ss)).2 = [] <;>
      simp [hinv] at h
    · exfalso
      rcases h with h | h
      · rcases sources_download_phase_events env fs dir ss _ h with h1 | h1
        · exact absurd h1 (by simp)
        · simp [Event.fromDownloader] at h1
      · simp [source_cleanup] at h
    · rcases h with h | h
      · exfalso
        rcases sources_download_phase_events env fs dir ss _ h with h1 | h1
        · exact absurd h1 (by simp)
        · simp [Event.fromDownloader] at h1
      · exact source_cleanup_remove_members _ _ p h
  · intro p h
    have hni := validate_source_paths_valid_not_invalid _ _ p h
    rw [conditional_download_sources_fs]
    refine ⟨?_, ?_, ?_⟩
    · rw [source_cleanup_isFile]
      simp [hni]
    · exact source_cleanup_fileSize _ _ p hni
    · exact source_cleanup_validHash _ _ p hni
  · intro p h
    rw [conditional_download_hashes_trace]
    exact List.mem_append_left _
      (List.mem_append_right _
        (List.mem_append_right _ (List.mem_map_of_mem _ h)))
  · intro p
    constructor <;>
      · intro h
        rw [conditional_download_hashes_trace] at h
        by_cases hinv : (validate_hash_paths
            (hashes_download_phase env fs dir hs).1 (setPaths hs)).2 = [] <;>
          simp [hinv] at h <;>
          · rcases hashes_download_phase_events env fs dir hs _ h with h1 | h1
            · exact absurd h1 (by simp)
            · simp [Event.fromDownloader] at h1

/-- Witness for C8 in the skip-flagged 500-byte world: the lone source path
is still invalid after re-validation, gets a removal attempt and a deletion
log, is gone from the final filesystem, while the hash-set run never emits
a removal for it; and over the empty filesystem, where the hash path is
still invalid, the hash-set run emits its per-path error log. -/
theorem source_cleanup_vs_hashes_witness :
    Event.removeAttempt "/tmp/assets/w.bin" ∈
      (conditional_download_sources envSkip fs500 "/tmp/assets" dsW).2.2 ∧
    (conditional_download_sources envSkip fs500 "/tmp/assets" dsW).2.1.isFile
      "/tmp/assets/w.bin" = false ∧
    Event.deleteLog "/tmp/assets/w.bin" ∈
      (conditional_download_sources envSkip fs500 "/tmp/assets" dsW).2.2 ∧
    Event.validateHashFailedLog "/tmp/assets/w.bin" ∈
      (conditional_download_hashes envSkip fsEmpty "/tmp/assets" dsW).2.2 ∧
    Event.removeAttempt "/tmp/assets/w.bin" ∉
      (conditional_download_hashes envSkip fs500 "/tmp/assets" dsW).2.2 :=
  ⟨((source_cleanup_vs_hashes envSkip fs500 "/tmp/assets" dsW dsW).1
      "/tmp/assets/w.bin" (by decide)).1,
   ((source_cleanup_vs_hashes envSkip fs500 "/tmp/assets" dsW dsW).1
      "/tmp/assets/w.bin" (by decide)).2.2.1,
   ((source_cleanup_vs_hashes envSkip fs500 "/tmp/assets" dsW dsW).1
      "/tmp/assets/w.bin" (by decide)).2.2.2 (by decide),
   (source_cleanup_vs_hashes envSkip fsEmpty "/tmp/assets" dsW dsW).2.2.2.1
      "/tmp/assets/w.bin" (by decide),
   ((source_cleanup_vs_hashes envSkip fs500 "/tmp/assets" dsW dsW).2.2.2.2.1
      "/tmp/assets/w.bin").1⟩

end FaceFusion
